import Mathlib

/-!
Shallow embedding of the OpenSlide Optra vendor backend
(`src/openslide-vendor-optra.c`).

The backend recognizes one vendor's tiled TIFF container, builds a level
pyramid, registers associated images, and serves tile reads through a
shared cache.  External collaborators (the tifflike reader, libtiff field
reads, the grid/cache engine, libxml) are modeled as oracle fields of an
environment record; the control flow, state mutation and resource
accounting of the vendor file itself are translated directly.

Machine integers appear here as `Nat`: every quantity involved (directory
indices, pixel dimensions, compression codes, byte sizes) is non-negative
and far from overflow in the C code.
-/

/-! ## String helpers (structural, kernel-computable) -/

/-- First-match association lookup keyed by `String`, mirroring both
`g_hash_table_lookup` (on our list model of the property table) and
`xmlGetNoNsProp` (first attribute with the given name). -/
def slookup {α : Type} : List (String × α) → String → Option α
  | [], _ => none
  | (n, v) :: rest, key => if n = key then some v else slookup rest key

/-- Model of `g_hash_table_insert` on the list model: the new pair replaces any
previous pair with the same key.  Lookup order is irrelevant in a hash
table, so placing the new entry at the front is an equivalent model. -/
def propInsert {α : Type} (props : List (String × α)) (k : String) (v : α) :
    List (String × α) :=
  (k, v) :: props.filter (fun p => p.1 ≠ k)

/-- Does `pat` occur at the start of `s`?  (list-of-chars form of C `strncmp`). -/
def listStartsWith : List Char → List Char → Bool
  | [], _ => true
  | _ :: _, [] => false
  | p :: ps, c :: cs => p = c && listStartsWith ps cs

/-- Does `pat` occur anywhere in the list?  (list-of-chars form of C `strstr`). -/
def listHasSub (pat : List Char) : List Char → Bool
  | [] => pat.isEmpty
  | c :: rest => listStartsWith pat (c :: rest) || listHasSub pat rest

/-- C `strstr(hay, pat) != NULL`. -/
def strContains (hay pat : String) : Bool :=
  listHasSub pat.data hay.data

/-- Digit value of a character, if it is a decimal digit. -/
def charDigit (c : Char) : Option Nat :=
  if '0' ≤ c ∧ c ≤ '9' then some (c.toNat - '0'.toNat) else none

/-- Parse a non-empty run of decimal digits. -/
def parseNatList : List Char → Option Nat
  | [] => none
  | cs =>
    cs.foldl (fun acc c =>
      match acc, charDigit c with
      | some n, some d => some (n * 10 + d)
      | _, _ => none) (some 0)

/-- Modelled from the spec: the integer parse used by the external
standard-property helper (`_openslide_duplicate_int_prop`, not under
`src/`): an optional sign followed by decimal digits, rejecting anything
else ("absent or unparsable source attributes leave the derived property
unset"). -/
def strToInt (s : String) : Option Int :=
  match s.data with
  | '-' :: rest => (parseNatList rest).map (fun n => -(n : Int))
  | cs => (parseNatList cs).map (fun n => (n : Int))

/-! ## XML model

libxml is an external collaborator: a parsed document is abstracted to its
root element, an element to its name and attribute list. -/

/-- A parsed XML element: node name and attributes in document order. -/
structure XmlElem where
  name : String
  attrs : List (String × String)
deriving DecidableEq

/-- Constant `XML_ROOT_TAG` from the vendor file. -/
def XML_ROOT_TAG : String := "ScanInfo"

/-- Constant `MIN_THUMBNAIL_DIM` from the vendor file. -/
def MIN_THUMBNAIL_DIM : Nat := 500

/-- Function `get_initial_root_xml`: return the document root when its name is the
sentinel tag, otherwise fail (the C function sets an error and returns
NULL). -/
def get_initial_root_xml (root : XmlElem) : Option XmlElem :=
  if root.name = XML_ROOT_TAG then some root else none

/-! ## Slide handle state -/

/-- One pyramid level as the claims need it: the image width recorded by
`_openslide_tiff_level_init` (the directory's IMAGEWIDTH tag) and the
source directory index (`tiffl.dir`). -/
structure Level where
  image_w : Nat
  dir : Nat
deriving DecidableEq

/-- The slide handle (`openslide_t`) as the vendor backend sees it:
the property table, the associated-image table (name to directory index),
the installed level sequence (`NULL` before a successful open) and whether
backend-private ops data has been installed. -/
structure Osr where
  properties : List (String × String)
  associatedImages : List (String × Nat)
  levels : Option (List Level)
  hasData : Bool
deriving DecidableEq

/-! ## parse_initial_xml -/

/-- The attribute-copying loop of `parse_initial_xml`: for each attribute
of the root element, fetch its value by name (`xmlGetNoNsProp`), skip NULL
or empty values, otherwise store it under the key "optra." ++ name.
`src` stays fixed at the full attribute list of the element while `attrs`
is the part of the loop still to run. -/
def copyAttrsAux (src : List (String × String)) :
    List (String × String) → List (String × String) → List (String × String)
  | [], props => props
  | a :: rest, props =>
    copyAttrsAux src rest
      (match slookup src a.1 with
       | none => props
       | some v => if v = "" then props else propInsert props ("optra." ++ a.1) v)

/-- All-attributes copy for one element. -/
def copyAttrs (scaninfo : XmlElem) (props : List (String × String)) :
    List (String × String) :=
  copyAttrsAux scaninfo.attrs scaninfo.attrs props

/-- Modelled from the spec: `_openslide_duplicate_int_prop` (external
helper, not under `src/`): read the source property, parse it as an
integer, and set the destination property on success; otherwise leave the
table unchanged, never an error. -/
def duplicate_int_prop (props : List (String × String)) (src dst : String) :
    List (String × String) :=
  match slookup props src with
  | none => props
  | some v =>
    match strToInt v with
    | none => props
    | some n => propInsert props dst (toString n)

/-- Modelled from the spec: `_openslide_duplicate_double_prop` (external
helper, not under `src/`): copy the source property value to the
destination key when present.  The numeric parse/reformat of the C helper
is abstracted to the raw string; no claim depends on the stored numeral's
spelling, only on which keys are written, and the destination keys are
fixed "openslide." names disjoint from every "optra." key. -/
def duplicate_double_prop (props : List (String × String)) (src dst : String) :
    List (String × String) :=
  match slookup props src with
  | none => props
  | some v => propInsert props dst v

/-- The standard-property stage at the end of `parse_initial_xml`. -/
def setStandardProps (props : List (String × String)) : List (String × String) :=
  duplicate_double_prop
    (duplicate_double_prop
      (duplicate_int_prop props "optra.Magnification" "openslide.objective-power")
      "optra.PixelResolution" "openslide.mpp-x")
    "optra.PixelResolution" "openslide.mpp-y"

/-- Function `parse_initial_xml`: parse the XML packet, check the root tag, copy
every root attribute to a vendor property, then derive the standard
properties.  Returns the success flag and the (possibly updated) handle;
on failure the handle is returned unchanged, since both failure points
precede any property write. -/
def parse_initial_xml (parse : String → Option XmlElem) (xml : String)
    (osr : Osr) : Bool × Osr :=
  match parse xml with
  | none => (false, osr)
  | some root =>
    match get_initial_root_xml root with
    | none => (false, osr)
    | some scaninfo =>
      (true, { osr with properties := setStandardProps (copyAttrs scaninfo osr.properties) })

/-! ## optra_detect -/

/-- The tifflike container description as detect consumes it:
whether directory 0 is tiled, and directory 0's XMLPACKET buffer if
present and readable. -/
structure Tifflike where
  isTiled0 : Bool
  xmlPacket : Option String

/-- Input to `optra_detect`: the (possibly absent) container description
and the XML parser oracle. -/
structure DetectInput where
  tl : Option Tifflike
  parse : String → Option XmlElem

/-- The distinct `g_set_error` sites of `optra_detect`. -/
inductive DetectErr where
  | notTiff
  | notTiled
  | noXmlPacket
  | markerMissing
  | parseFailed
  | badRoot
deriving DecidableEq

/-- Function `optra_detect`: a pure predicate over its input.  The C function
receives only the filename, the container description and an error out
parameter, so it has no slide handle to mutate; its only allocation (the
parsed document) is freed on every path. -/
def optra_detect (inp : DetectInput) : Except DetectErr Unit :=
  match inp.tl with
  | none => .error .notTiff
  | some tl =>
    if tl.isTiled0 = false then .error .notTiled
    else
      match tl.xmlPacket with
      | none => .error .noXmlPacket
      | some xml =>
        if strContains xml XML_ROOT_TAG = false then .error .markerMissing
        else
          match inp.parse xml with
          | none => .error .parseFailed
          | some root =>
            match get_initial_root_xml root with
            | none => .error .badRoot
            | some _ => .ok ()

/-! ## read_tile: the tile decoder / cache adapter -/

/-- Cache key: (level identity, tile column, tile row).  The C keys the
shared cache on the level pointer; distinct levels get distinct
identities, modeled as a `Nat` tag. -/
structure TileKey where
  level : Nat
  col : Nat
  row : Nat
deriving DecidableEq

/-- Decoded tile pixel data (the contents of the 32-bit-per-pixel
buffer), compared bit-for-bit. -/
abbrev TileData := List Nat

/-- Model of `_openslide_cache_get` on the list model of the shared cache. -/
def cacheGet : List (TileKey × TileData) → TileKey → Option TileData
  | [], _ => none
  | (k, d) :: rest, key => if k = key then some d else cacheGet rest key

/-- Model of `_openslide_cache_put` with no eviction: insert the entry under its
key.  The claims about `read_tile` are conditioned on no intervening
eviction, so the eviction machinery of the generic cache is out of
scope. -/
def cachePut (c : List (TileKey × TileData)) (k : TileKey) (d : TileData) :
    List (TileKey × TileData) :=
  (k, d) :: c

/-- Environment of `read_tile`: the level's tile geometry and the two
fallible external operations (`_openslide_tiff_read_tile`,
`_openslide_tiff_clip_tile`).  Clipping may rewrite the buffer (edge
tiles) and may fail. -/
structure TileEnv where
  tile_w : Nat
  tile_h : Nat
  decodeTile : TileKey → Option TileData
  clipTile : TileKey → TileData → Option TileData

/-- Mutable state threaded through `read_tile` calls: the shared cache,
the number of underlying decodes performed, and the byte sizes of the
pixel buffers allocated (`g_slice_alloc`) and freed (`g_slice_free1`). -/
structure RTState where
  cache : List (TileKey × TileData)
  decodes : Nat
  allocs : List Nat
  frees : List Nat
deriving DecidableEq

/-- Result of one `read_tile` call: the returned boolean, the pixel data
composited onto the cairo surface (none when the call fails before
drawing), and the state after the call. -/
structure RTResult where
  ok : Bool
  painted : Option TileData
  state : RTState
deriving DecidableEq

/-- Function `read_tile`: look up the tile in the cache; on a miss allocate a
`tile_w * tile_h * 4`-byte buffer, decode, clip, and cache; on either
failure free the buffer and return false; finally composite the buffer
and release the cache-entry reference. -/
def read_tile (env : TileEnv) (s : RTState) (k : TileKey) : RTResult :=
  match cacheGet s.cache k with
  | some tiledata => { ok := true, painted := some tiledata, state := s }
  | none =>
    let bufBytes := env.tile_w * env.tile_h * 4
    let s1 : RTState := { s with allocs := s.allocs ++ [bufBytes], decodes := s.decodes + 1 }
    match env.decodeTile k with
    | none =>
      { ok := false, painted := none,
        state := { s1 with frees := s1.frees ++ [bufBytes] } }
    | some data =>
      match env.clipTile k data with
      | none =>
        { ok := false, painted := none,
          state := { s1 with frees := s1.frees ++ [bufBytes] } }
      | some clipped =>
        { ok := true, painted := some clipped,
          state := { s1 with cache := cachePut s1.cache k clipped } }

/-! ## optra_open -/

/-- One TIFF directory as the open walk reads it.  Each `Option` field is
the corresponding `TIFFGetField`/`TIFFIsTiled` read: `none` means the
field read fails. -/
structure TiffDir where
  isTiled : Bool
  subfiletype : Option Nat
  imageDescription : Option String
  imageWidth : Option Nat
  imageHeight : Option Nat
  compression : Option Nat

/-- Environment of `optra_open`: the opened TIFF's directories in order,
plus the external fallible operations as oracles (codec support query,
level initialization, associated-image registration, directory seek, and
the property/hash finalizer). -/
structure OpenEnv where
  tiffOpenOk : Bool
  xmlPacket : Option String
  parse : String → Option XmlElem
  dirs : List TiffDir
  codecConfigured : Nat → Bool
  levelInitOk : Nat → Bool
  addAssociatedImageOk : String → Nat → Bool
  setDirOk : Nat → Bool
  initPropsHashOk : Nat → Bool

/-- The distinct failure sites of `optra_open` and its helpers. -/
inductive OptraErr where
  | notTiff
  | noXmlPacket
  | xmlParseFailed
  | descReadFailed
  | assocImageFailed
  | widthReadFailed
  | heightReadFailed
  | compReadFailed
  | unsupportedCompression (code : Nat)
  | levelInitFailed
  | setDirFailed
  | thumbnailFailed
  | hashFailed
deriving DecidableEq

/-- Walk state of the directory loop: accumulated levels (`level_array`),
the recorded thumbnail candidate (`tn_dir`), the slide handle, resource
accounting for level structs and grids, and the pending error (`goto
FAIL` freezes the state). -/
structure WalkState where
  levels : List Level
  tn_dir : Nat
  osr : Osr
  levelAllocs : Nat
  levelFrees : Nat
  gridAllocs : Nat
  gridFrees : Nat
  err : Option OptraErr

/-- The compression check and level construction shared by directory 0
and reduced-resolution directories (lines 345-377 of the C file). -/
def mkLevelStep (env : OpenEnv) (s : WalkState) (i : Nat) (d : TiffDir) : WalkState :=
  match d.compression with
  | none => { s with err := some .compReadFailed }
  | some c =>
    if env.codecConfigured c = false then
      { s with err := some (.unsupportedCompression c) }
    else
      if env.levelInitOk i then
        { s with levelAllocs := s.levelAllocs + 1,
                 gridAllocs := s.gridAllocs + 1,
                 levels := s.levels ++ [{ image_w := d.imageWidth.getD 0, dir := i }] }
      else
        { s with levelAllocs := s.levelAllocs + 1,
                 levelFrees := s.levelFrees + 1,
                 err := some .levelInitFailed }

/-- One iteration of the directory walk for directory `i`.  A `continue`
in the C loop still advances to the next directory, so skipping is the
identity on the state; a `goto FAIL` records the error, and later
iterations become no-ops. -/
def walkStep (env : OpenEnv) (s : WalkState) (i : Nat) (d : TiffDir) : WalkState :=
  if s.err.isSome then s
  else if d.isTiled = false then s
  else if i ≠ 0 then
    match d.subfiletype with
    | none => s
    | some sft =>
      if sft % 2 = 0 then
        match d.imageDescription with
        | none => { s with err := some .descReadFailed }
        | some desc =>
          if env.addAssociatedImageOk desc i then
            { s with osr := { s.osr with
                associatedImages := propInsert s.osr.associatedImages desc i } }
          else { s with err := some .assocImageFailed }
      else
        match d.imageWidth with
        | none => { s with err := some .widthReadFailed }
        | some w =>
          match d.imageHeight with
          | none => { s with err := some .heightReadFailed }
          | some h =>
            mkLevelStep env
              (if MIN_THUMBNAIL_DIM < w ∧ MIN_THUMBNAIL_DIM < h
               then { s with tn_dir := i } else s) i d
  else mkLevelStep env s i d

/-- The whole directory walk (the do-while loop). -/
def walkDirs (env : OpenEnv) : List (Nat × TiffDir) → WalkState → WalkState
  | [], s => s
  | (i, d) :: rest, s => walkDirs env rest (walkStep env s i d)

/-- Initial walk state: empty level array, thumbnail candidate at the
current (first) directory, no allocations, no error. -/
def initWalk (osr : Osr) : WalkState :=
  { levels := [], tn_dir := 0, osr := osr,
    levelAllocs := 0, levelFrees := 0, gridAllocs := 0, gridFrees := 0,
    err := none }

/-- Function `width_compare`: the qsort comparator over levels, ordering by
strictly descending image width. -/
def width_compare (la lb : Level) : Int :=
  if lb.image_w < la.image_w then -1
  else if la.image_w = lb.image_w then 0
  else 1

/-- The "goes before or ties" relation induced by `width_compare`. -/
def wRel (la lb : Level) : Prop := width_compare la lb ≤ 0

instance wRelDecidable : DecidableRel wRel := by
  intro a b
  unfold wRel
  infer_instance

/-- Model of `g_ptr_array_sort(level_array, width_compare)`: some permutation of
the array sorted with respect to the comparator; ties are in an
unspecified order, so any sort against `wRel` is a faithful model. -/
def sortLevels (ls : List Level) : List Level := List.insertionSort wRel ls

/-- Outcome classification for `optra_open`: success, failure via the
FAIL label, or undefined behavior (the out-of-bounds designated-level
read when the level array is empty). -/
inductive OpenStatus where
  | ok
  | fail
  | undef
deriving DecidableEq

/-- Observable outcome of `optra_open`: status, the error recorded (first
`g_set_error`), the slide handle after the call, the arguments passed to
`_openslide_tifflike_init_properties_and_hash` (directory of the
designated level, and directory 0) if that call was reached, resource
accounting, and whether the tiffcache was torn down (the FAIL path always
destroys it; on success its ownership moves to the installed ops
data). -/
structure OpenOutcome where
  status : OpenStatus
  err : Option OptraErr
  osr : Osr
  hashArgs : Option (Nat × Nat)
  levelAllocs : Nat
  levelFrees : Nat
  gridAllocs : Nat
  gridFrees : Nat
  tcReleased : Bool

/-- The FAIL label: frees every level struct and grid accumulated in the
level array, puts back the cached TIFF and destroys the tiffcache.
Property and associated-image writes already performed on the slide
handle are not undone. -/
def failOut (s : WalkState) (e : OptraErr) (ha : Option (Nat × Nat)) : OpenOutcome :=
  { status := .fail, err := some e, osr := s.osr, hashArgs := ha,
    levelAllocs := s.levelAllocs,
    levelFrees := s.levelFrees + s.levels.length,
    gridAllocs := s.gridAllocs,
    gridFrees := s.gridFrees + s.levels.length,
    tcReleased := true }

/-- Registration of the recorded thumbnail candidate as the associated
image named "thumbnail" (line 388 of the C file). -/
def thumbState (s : WalkState) : WalkState :=
  { s with osr := { s.osr with
      associatedImages := propInsert s.osr.associatedImages "thumbnail" s.tn_dir } }

/-- The sort, the designated-level read at index `len - 1`, the
hash/property finalization and the final commit onto the handle.  The
C reads `level_array->pdata[level_array->len - 1]` with no emptiness
check: on an empty array the read is out of bounds, modeled as the
`undef` status (`len - 1` underflows an unsigned index in C; `Nat`
subtraction gives index `0`, equally out of bounds on an empty list). -/
def openCommitPhase (env : OpenEnv) (s : WalkState) : OpenOutcome :=
  match (sortLevels s.levels).get? ((sortLevels s.levels).length - 1) with
  | none =>
    { status := .undef, err := none, osr := s.osr, hashArgs := none,
      levelAllocs := s.levelAllocs, levelFrees := s.levelFrees,
      gridAllocs := s.gridAllocs, gridFrees := s.gridFrees,
      tcReleased := false }
  | some top =>
    if env.initPropsHashOk top.dir = false then
      failOut s .hashFailed (some (top.dir, 0))
    else
      { status := .ok, err := none,
        osr := { s.osr with levels := some (sortLevels s.levels), hasData := true },
        hashArgs := some (top.dir, 0),
        levelAllocs := s.levelAllocs, levelFrees := s.levelFrees,
        gridAllocs := s.gridAllocs, gridFrees := s.gridFrees,
        tcReleased := false }

/-- Everything after a successful directory walk: thumbnail seek and
registration, then sort, designated-level read, hash, and commit. -/
def openFinishPhase (env : OpenEnv) (s : WalkState) : OpenOutcome :=
  if env.setDirOk s.tn_dir = false then failOut s .setDirFailed none
  else if env.addAssociatedImageOk "thumbnail" s.tn_dir = false then
    failOut s .thumbnailFailed none
  else openCommitPhase env (thumbState s)

/-- The directory walk plus everything after it. -/
def openWalkPhase (env : OpenEnv) (osr1 : Osr) : OpenOutcome :=
  let s := walkDirs env env.dirs.enum (initWalk osr1)
  match s.err with
  | some e => failOut s e none
  | none => openFinishPhase env s

/-- Function `optra_open`.  Directory indices are the walk order of the do-while
loop, starting at the current directory 0 of the freshly opened TIFF. -/
def optra_open (env : OpenEnv) (osr0 : Osr) : OpenOutcome :=
  if env.tiffOpenOk = false then failOut (initWalk osr0) .notTiff none
  else
    match env.xmlPacket with
    | none => failOut (initWalk osr0) .noXmlPacket none
    | some xml =>
      match parse_initial_xml env.parse xml osr0 with
      | (false, osr1) => failOut (initWalk osr1) .xmlParseFailed none
      | (true, osr1) => openWalkPhase env osr1

/-! ## Resource-accounting invariant and concrete test containers -/

/-- Invariant of the directory walk: every allocated level struct is
either freed already or sitting in the level array (and likewise for
grids, which are allocated exactly when a level reaches the array), and
the walk never writes the handle's level sequence or ops data. -/
def WalkInv (osr0 : Osr) (s : WalkState) : Prop :=
  s.levelAllocs = s.levelFrees + s.levels.length ∧
  s.gridAllocs = s.gridFrees + s.levels.length ∧
  s.osr.levels = osr0.levels ∧
  s.osr.hasData = osr0.hasData

/-- A slide handle before `optra_open` runs: no properties, no
associated images, no levels, no ops data. -/
def freshOsr : Osr :=
  { properties := [], associatedImages := [], levels := none, hasData := false }

/-- A directory none of whose fields are readable and that is not
tiled. -/
def untiledDir : TiffDir :=
  { isTiled := false, subfiletype := none, imageDescription := none,
    imageWidth := none, imageHeight := none, compression := none }

/-- A tiled full-resolution-style directory (walked at index 0). -/
def baseDir : TiffDir :=
  { isTiled := true, subfiletype := none, imageDescription := none,
    imageWidth := some 10000, imageHeight := some 8000, compression := some 7 }

/-- A tiled reduced-resolution directory of the given dimensions. -/
def reducedDir (w h : Nat) : TiffDir :=
  { isTiled := true, subfiletype := some 1, imageDescription := none,
    imageWidth := some w, imageHeight := some h, compression := some 7 }

/-- A tiled non-reduced (associated image) directory. -/
def labelDir : TiffDir :=
  { isTiled := true, subfiletype := some 0, imageDescription := some "label",
    imageWidth := none, imageHeight := none, compression := none }

/-- XML parser oracle recognizing one concrete packet with an
attribute-free ScanInfo root. -/
def scanInfoParse : String → Option XmlElem :=
  fun s => if s = "<ScanInfo/>" then some { name := "ScanInfo", attrs := [] } else none

/-- A well-formed container: directory 0 is the base image, directory 2
is a 600 by 600 reduced image, directory 3 an associated image,
directory 5 an 800 by 800 reduced image; directories 1 and 4 are
skipped.  Every external operation succeeds and codec 7 is supported. -/
def goodEnv : OpenEnv :=
  { tiffOpenOk := true,
    xmlPacket := some "<ScanInfo/>",
    parse := scanInfoParse,
    dirs := [baseDir, untiledDir, reducedDir 600 600, labelDir, untiledDir,
             reducedDir 800 800],
    codecConfigured := fun c => c = 7,
    levelInitOk := fun _ => true,
    addAssociatedImageOk := fun _ _ => true,
    setDirOk := fun _ => true,
    initPropsHashOk := fun _ => true }

/-- A container whose only directory is tiled but uses compression code
99, which no codec supports; its XML packet carries one attribute, so
`parse_initial_xml` installs vendor properties before the walk fails. -/
def unsupportedCompressionEnv : OpenEnv :=
  { tiffOpenOk := true,
    xmlPacket := some "<ScanInfo/>",
    parse := fun s =>
      if s = "<ScanInfo/>" then
        some { name := "ScanInfo", attrs := [("Magnification", "20")] }
      else none,
    dirs := [{ isTiled := true, subfiletype := none, imageDescription := none,
               imageWidth := some 100, imageHeight := some 100,
               compression := some 99 }],
    codecConfigured := fun _ => false,
    levelInitOk := fun _ => true,
    addAssociatedImageOk := fun _ _ => true,
    setDirOk := fun _ => true,
    initPropsHashOk := fun _ => true }

/-- A container whose directory walk produces zero levels (its only
directory is not tiled) while every step before the designated-level
read succeeds. -/
def zeroLevelEnv : OpenEnv :=
  { tiffOpenOk := true,
    xmlPacket := some "<ScanInfo/>",
    parse := scanInfoParse,
    dirs := [untiledDir],
    codecConfigured := fun _ => true,
    levelInitOk := fun _ => true,
    addAssociatedImageOk := fun _ _ => true,
    setDirOk := fun _ => true,
    initPropsHashOk := fun _ => true }

/-- A detect input that passes every check. -/
def goodDetectInput : DetectInput :=
  { tl := some { isTiled0 := true, xmlPacket := some "<ScanInfo/>" },
    parse := scanInfoParse }

/-- A detect input with no container description at all. -/
def badDetectInput : DetectInput :=
  { tl := none, parse := scanInfoParse }

/-- A tile-read environment whose decode always succeeds with a fixed
pixel pattern and whose clip is the identity. -/
def okTileEnv : TileEnv :=
  { tile_w := 2, tile_h := 2,
    decodeTile := fun _ => some [1, 2, 3, 4],
    clipTile := fun _ d => some d }

/-- A tile-read environment whose decode always fails. -/
def failTileEnv : TileEnv :=
  { tile_w := 2, tile_h := 2,
    decodeTile := fun _ => none,
    clipTile := fun _ d => some d }

/-- An empty tile-read state: cold cache, zeroed counters. -/
def emptyRTState : RTState :=
  { cache := [], decodes := 0, allocs := [], frees := [] }

/-- A ScanInfo root with one non-empty and one empty attribute. -/
def roundTripRoot : XmlElem :=
  { name := "ScanInfo", attrs := [("Magnification", "20"), ("Comment", "")] }

/-- Parser oracle producing `roundTripRoot` for any packet. -/
def roundTripParse : String → Option XmlElem := fun _ => some roundTripRoot

/-- What the FAIL path guarantees: level structs and grids balanced
(everything allocated was freed), the tiffcache torn down, the handle's
level sequence and ops-data flag exactly as before the call, and an
error recorded. -/
def ReleasedSpec (osr0 : Osr) (o : OpenOutcome) : Prop :=
  o.levelFrees = o.levelAllocs ∧
  o.gridFrees = o.gridAllocs ∧
  o.tcReleased = true ∧
  o.osr.levels = osr0.levels ∧
  o.osr.hasData = osr0.hasData ∧
  o.err.isSome = true

instance wRelTotal : IsTotal Level wRel :=
  ⟨fun a b => by
    unfold wRel width_compare
    split_ifs <;> first | (left; decide) | (right; decide) | (exfalso; omega)⟩

instance wRelTrans : IsTrans Level wRel :=
  ⟨fun a b c hab hbc => by
    unfold wRel width_compare at hab hbc ⊢
    split_ifs at hab hbc ⊢ <;> omega⟩


/-! ## Lemmas about the property-table model -/

theorem slookup_propInsert_self {α : Type} (props : List (String × α)) (k : String) (v : α) :
    slookup (propInsert props k v) k = some v := by
  simp [propInsert, slookup]

theorem slookup_filter_ne {α : Type} (props : List (String × α)) (k key : String)
    (h : key ≠ k) :
    slookup (props.filter (fun p => p.1 ≠ k)) key = slookup props key := by
  induction props with
  | nil => rfl
  | cons p rest ih =>
    obtain ⟨n, v⟩ := p
    by_cases hp : n = k
    · subst hp
      rw [List.filter_cons_of_neg (by simp)]
      rw [ih]
      have hr : slookup ((n, v) :: rest) key = slookup rest key := by
        simp only [slookup]
        exact if_neg (fun hh => h hh.symm)
      rw [hr]
    · rw [List.filter_cons_of_pos (by simp [hp])]
      simp only [slookup]
      by_cases hk : n = key
      · rw [if_pos hk, if_pos hk]
      · rw [if_neg hk, if_neg hk]
        exact ih

theorem slookup_propInsert_ne {α : Type} (props : List (String × α)) (k key : String)
    (v : α) (h : key ≠ k) :
    slookup (propInsert props k v) key = slookup props key := by
  unfold propInsert
  simp only [slookup]
  rw [if_neg (fun hh => h hh.symm)]
  exact slookup_filter_ne props k key h

theorem slookup_of_mem_nodup {α : Type} (l : List (String × α)) (n : String) (v : α)
    (hm : (n, v) ∈ l) (hd : (l.map Prod.fst).Nodup) : slookup l n = some v := by
  induction l with
  | nil => cases hm
  | cons p rest ih =>
    rcases List.mem_cons.mp hm with heq | hrest
    · rw [← heq]
      simp [slookup]
    · have hne : p.1 ≠ n := by
        intro hh
        have hin : n ∈ rest.map Prod.fst := List.mem_map.mpr ⟨(n, v), hrest, rfl⟩
        rw [List.map_cons, List.nodup_cons] at hd
        exact hd.1 (hh ▸ hin)
      obtain ⟨n0, v0⟩ := p
      simp only [slookup]
      rw [if_neg hne]
      exact ih hrest (by rw [List.map_cons, List.nodup_cons] at hd; exact hd.2)

/-! ## Lemmas about "optra." key formation -/

theorem optra_append_inj {x y : String} (h : "optra." ++ x = "optra." ++ y) : x = y := by
  obtain ⟨xd⟩ := x
  obtain ⟨yd⟩ := y
  have h2 : String.mk ("optra.".data ++ xd) = String.mk ("optra.".data ++ yd) := h
  have h3 : "optra.".data ++ xd = "optra.".data ++ yd := congrArg String.data h2
  exact congrArg String.mk (List.append_cancel_left h3)

theorem optra_append_ne (n k : String) (hk : k.data.get? 2 = some 'e') :
    ("optra." ++ n) ≠ k := by
  obtain ⟨nd⟩ := n
  intro h
  rw [← h] at hk
  have h2 : ("optra." ++ String.mk nd).data.get? 2 = some 't' := rfl
  rw [h2] at hk
  exact absurd hk (by decide)

/-! ## Claims C7 and C8: the tile decoder / cache adapter -/

/-- C7: in `read_tile`, on a cache miss where the decode or the edge clip
fails, the freshly allocated buffer of `tile_w * tile_h * 4` bytes is
freed, the call returns false, and the cache is unchanged. -/
theorem read_tile_failure_frees_and_caches_nothing
    (env : TileEnv) (s : RTState) (k : TileKey)
    (hmiss : cacheGet s.cache k = none)
    (hfail : env.decodeTile k = none ∨
      ∃ d, env.decodeTile k = some d ∧ env.clipTile k d = none) :
    (read_tile env s k).ok = false ∧
    (read_tile env s k).state.cache = s.cache ∧
    (read_tile env s k).state.allocs = s.allocs ++ [env.tile_w * env.tile_h * 4] ∧
    (read_tile env s k).state.frees = s.frees ++ [env.tile_w * env.tile_h * 4] := by
  rcases hfail with hdec | ⟨d, hdec, hclip⟩
  · simp [read_tile, hmiss, hdec]
  · simp [read_tile, hmiss, hdec, hclip]

theorem read_tile_failure_frees_and_caches_nothing_witness :
    cacheGet emptyRTState.cache ⟨0, 0, 0⟩ = none ∧
    (read_tile failTileEnv emptyRTState ⟨0, 0, 0⟩).ok = false ∧
    (read_tile failTileEnv emptyRTState ⟨0, 0, 0⟩).state.cache = emptyRTState.cache ∧
    (read_tile failTileEnv emptyRTState ⟨0, 0, 0⟩).state.frees =
      emptyRTState.frees ++ [failTileEnv.tile_w * failTileEnv.tile_h * 4] := by
  have h := read_tile_failure_frees_and_caches_nothing failTileEnv emptyRTState
    ⟨0, 0, 0⟩ (by decide) (Or.inl rfl)
  exact ⟨by decide, h.1, h.2.1, h.2.2.2⟩

/-- C8: reading the same (level, column, row) twice with no eviction in
between paints bit-identical pixel data both times and performs exactly
one underlying decode; the second access is a cache hit, leaving the
state untouched. -/
theorem read_tile_second_read_cached
    (env : TileEnv) (s : RTState) (k : TileKey)
    (hmiss : cacheGet s.cache k = none)
    (hok : (read_tile env s k).ok = true) :
    (read_tile env (read_tile env s k).state k).ok = true ∧
    (read_tile env (read_tile env s k).state k).painted = (read_tile env s k).painted ∧
    (∃ d, (read_tile env s k).painted = some d) ∧
    (read_tile env (read_tile env s k).state k).state = (read_tile env s k).state ∧
    (read_tile env (read_tile env s k).state k).state.decodes = s.decodes + 1 := by
  cases hdec : env.decodeTile k with
  | none =>
    simp [read_tile, hmiss, hdec] at hok
  | some d =>
    cases hclip : env.clipTile k d with
    | none =>
      simp [read_tile, hmiss, hdec, hclip] at hok
    | some clipped =>
      simp [read_tile, hmiss, hdec, hclip, cacheGet, cachePut]

theorem read_tile_second_read_cached_witness :
    cacheGet emptyRTState.cache ⟨1, 2, 3⟩ = none ∧
    (read_tile okTileEnv emptyRTState ⟨1, 2, 3⟩).ok = true ∧
    (read_tile okTileEnv (read_tile okTileEnv emptyRTState ⟨1, 2, 3⟩).state ⟨1, 2, 3⟩).painted =
      (read_tile okTileEnv emptyRTState ⟨1, 2, 3⟩).painted ∧
    (read_tile okTileEnv (read_tile okTileEnv emptyRTState ⟨1, 2, 3⟩).state ⟨1, 2, 3⟩).state.decodes =
      emptyRTState.decodes + 1 := by
  have h := read_tile_second_read_cached okTileEnv emptyRTState ⟨1, 2, 3⟩
    (by decide) (by decide)
  exact ⟨by decide, by decide, h.2.1, h.2.2.2.2⟩

/-! ## Claims C5 and C9: the format detector -/

/-- C5: `optra_detect` succeeds exactly when a container description is
present, its first directory is tiled, an XML packet is present and
readable, the packet text contains the sentinel tag before full parse,
the parse succeeds, and the parsed root element carries the sentinel
name; equivalently, it fails exactly when one of those conditions fails.
The C function receives only the filename, the container description and
an error out-parameter — there is no slide handle in scope to mutate —
so it is faithfully a pure function of its input. -/
theorem optra_detect_success_iff (inp : DetectInput) :
    optra_detect inp = .ok () ↔
      ∃ tl xml root,
        inp.tl = some tl ∧ tl.isTiled0 = true ∧ tl.xmlPacket = some xml ∧
        strContains xml XML_ROOT_TAG = true ∧ inp.parse xml = some root ∧
        root.name = XML_ROOT_TAG := by
  constructor
  · intro h
    unfold optra_detect at h
    cases htl : inp.tl with
    | none => simp [htl] at h
    | some tl =>
      simp only [htl] at h
      cases htiled : tl.isTiled0 with
      | false => simp [htiled] at h
      | true =>
        simp only [htiled] at h
        rw [if_neg (by simp)] at h
        cases hxml : tl.xmlPacket with
        | none => simp [hxml] at h
        | some xml =>
          simp only [hxml] at h
          cases hmark : strContains xml XML_ROOT_TAG with
          | false => simp [hmark] at h
          | true =>
            simp only [hmark] at h
            rw [if_neg (by simp)] at h
            cases hparse : inp.parse xml with
            | none => simp [hparse] at h
            | some root =>
              simp only [hparse] at h
              unfold get_initial_root_xml at h
              by_cases hname : root.name = XML_ROOT_TAG
              · exact ⟨tl, xml, root, rfl, htiled, hxml, hmark, hparse, hname⟩
              · rw [if_neg hname] at h; cases h
  · rintro ⟨tl, xml, root, htl, htiled, hxml, hmark, hparse, hname⟩
    simp [optra_detect, htl, htiled, hxml, hmark, hparse, get_initial_root_xml, hname]

theorem optra_detect_success_iff_witness :
    optra_detect goodDetectInput = .ok () :=
  (optra_detect_success_iff goodDetectInput).mpr
    ⟨{ isTiled0 := true, xmlPacket := some "<ScanInfo/>" }, "<ScanInfo/>",
      { name := "ScanInfo", attrs := [] }, rfl, rfl, rfl, by decide, rfl, rfl⟩

/-- C9: `optra_detect` is deterministic and idempotent.  The C function
performs no writes through its arguments (its one allocation, the parsed
document, is freed on every path, and it never touches a slide handle),
so it is a pure function of its input: two calls on the same input
return the same accept/reject result and, on reject, record the same
error site. -/
theorem optra_detect_deterministic (i1 i2 : DetectInput) (h : i1 = i2) :
    optra_detect i1 = optra_detect i2 ∧
    ∀ e1 e2, optra_detect i1 = .error e1 → optra_detect i2 = .error e2 → e1 = e2 := by
  subst h
  refine ⟨rfl, fun e1 e2 h1 h2 => ?_⟩
  rw [h1] at h2
  exact Except.error.inj h2

theorem optra_detect_deterministic_witness :
    optra_detect badDetectInput = optra_detect badDetectInput ∧
    DetectErr.notTiff = DetectErr.notTiff :=
  ⟨(optra_detect_deterministic badDetectInput badDetectInput rfl).1,
   (optra_detect_deterministic badDetectInput badDetectInput rfl).2
     DetectErr.notTiff DetectErr.notTiff rfl rfl⟩

/-! ## Claim C4: the attribute round-trip of parse_initial_xml -/

theorem copyAttrsAux_lookup_pres (src : List (String × String)) (n : String) :
    ∀ (attrs props : List (String × String)),
      (∀ a ∈ attrs, a.1 = n → slookup src a.1 = some "") →
      slookup (copyAttrsAux src attrs props) ("optra." ++ n) =
        slookup props ("optra." ++ n) := by
  intro attrs
  induction attrs with
  | nil => intro props _; rfl
  | cons a rest ih =>
    intro props h
    simp only [copyAttrsAux]
    rw [ih _ (fun b hb => h b (List.mem_cons_of_mem a hb))]
    by_cases han : a.1 = n
    · have hsv := h a (List.mem_cons_self a rest) han
      rw [hsv]
      simp
    · cases hv : slookup src a.1 with
      | none => rfl
      | some v =>
        simp only [hv]
        by_cases hvv : v = ""
        · rw [if_pos hvv]
        · rw [if_neg hvv]
          exact slookup_propInsert_ne _ _ _ _
            (fun hh => han (optra_append_inj hh).symm)

theorem copyAttrsAux_lookup_hit (src : List (String × String)) (n v : String)
    (hsrc : slookup src n = some v) (hne : v ≠ "") :
    ∀ (attrs props : List (String × String)),
      (n, v) ∈ attrs → (attrs.map Prod.fst).Nodup →
      slookup (copyAttrsAux src attrs props) ("optra." ++ n) = some v := by
  intro attrs
  induction attrs with
  | nil => intro props hmem _; cases hmem
  | cons a rest ih =>
    intro props hmem hnodup
    simp only [copyAttrsAux]
    rcases List.mem_cons.mp hmem with heq | hrest
    · have ha1 : a.1 = n := by rw [← heq]
      have hnotin : ∀ b ∈ rest, b.1 = n → slookup src b.1 = some "" := by
        intro b hb hbn
        exfalso
        rw [List.map_cons, List.nodup_cons] at hnodup
        apply hnodup.1
        rw [ha1, ← hbn]
        exact List.mem_map.mpr ⟨b, hb, rfl⟩
      rw [copyAttrsAux_lookup_pres src n rest _ hnotin]
      rw [ha1, hsrc]
      simp only [if_neg hne]
      exact slookup_propInsert_self _ _ _
    · have han : a.1 ≠ n := by
        intro hh
        rw [List.map_cons, List.nodup_cons] at hnodup
        exact hnodup.1 (hh ▸ List.mem_map.mpr ⟨(n, v), hrest, rfl⟩)
      exact ih _ hrest (by rw [List.map_cons, List.nodup_cons] at hnodup; exact hnodup.2)

theorem duplicate_int_prop_lookup_ne (props : List (String × String))
    (src dst key : String) (h : key ≠ dst) :
    slookup (duplicate_int_prop props src dst) key = slookup props key := by
  cases hv : slookup props src with
  | none => simp [duplicate_int_prop, hv]
  | some v =>
    cases hn : strToInt v with
    | none => simp [duplicate_int_prop, hv, hn]
    | some m =>
      simp only [duplicate_int_prop, hv, hn]
      exact slookup_propInsert_ne _ _ _ _ h

theorem duplicate_double_prop_lookup_ne (props : List (String × String))
    (src dst key : String) (h : key ≠ dst) :
    slookup (duplicate_double_prop props src dst) key = slookup props key := by
  cases hv : slookup props src with
  | none => simp [duplicate_double_prop, hv]
  | some v =>
    simp only [duplicate_double_prop, hv]
    exact slookup_propInsert_ne _ _ _ _ h

theorem setStandardProps_lookup_optra (props : List (String × String)) (n : String) :
    slookup (setStandardProps props) ("optra." ++ n) =
      slookup props ("optra." ++ n) := by
  unfold setStandardProps
  rw [duplicate_double_prop_lookup_ne _ _ _ _ (optra_append_ne n _ (by decide))]
  rw [duplicate_double_prop_lookup_ne _ _ _ _ (optra_append_ne n _ (by decide))]
  rw [duplicate_int_prop_lookup_ne _ _ _ _ (optra_append_ne n _ (by decide))]

/-- C4: `parse_initial_xml` copies every root attribute with a non-empty
value, unmodified, into the property table under the vendor key
"optra." ++ name (a round-trip), and skips attributes whose value is
empty, leaving the vendor key exactly as it was before the call.  XML
attribute names within one element are unique, which the `Nodup`
hypothesis records. -/
theorem parse_initial_xml_attr_roundtrip
    (parse : String → Option XmlElem) (xml : String) (osr : Osr) (root : XmlElem)
    (hp : parse xml = some root) (hname : root.name = XML_ROOT_TAG)
    (hnodup : (root.attrs.map Prod.fst).Nodup) :
    (parse_initial_xml parse xml osr).1 = true ∧
    (∀ n v, (n, v) ∈ root.attrs → v ≠ "" →
      slookup (parse_initial_xml parse xml osr).2.properties ("optra." ++ n) = some v) ∧
    (∀ n, (n, "") ∈ root.attrs →
      slookup (parse_initial_xml parse xml osr).2.properties ("optra." ++ n) =
        slookup osr.properties ("optra." ++ n)) := by
  have hroot : get_initial_root_xml root = some root := by
    unfold get_initial_root_xml
    rw [if_pos hname]
  unfold parse_initial_xml
  simp only [hp, hroot]
  refine ⟨trivial, ?_, ?_⟩
  · intro n v hmem hvne
    rw [setStandardProps_lookup_optra]
    unfold copyAttrs
    exact copyAttrsAux_lookup_hit root.attrs n v
      (slookup_of_mem_nodup _ _ _ hmem hnodup) hvne root.attrs osr.properties hmem hnodup
  · intro n hmem
    rw [setStandardProps_lookup_optra]
    unfold copyAttrs
    refine copyAttrsAux_lookup_pres root.attrs n root.attrs osr.properties ?_
    intro a ha han
    rw [han]
    exact slookup_of_mem_nodup _ _ _ hmem hnodup

theorem parse_initial_xml_attr_roundtrip_witness :
    (parse_initial_xml roundTripParse "x" freshOsr).1 = true ∧
    slookup (parse_initial_xml roundTripParse "x" freshOsr).2.properties
      ("optra." ++ "Magnification") = some "20" ∧
    slookup (parse_initial_xml roundTripParse "x" freshOsr).2.properties
      ("optra." ++ "Comment") = slookup freshOsr.properties ("optra." ++ "Comment") := by
  have h := parse_initial_xml_attr_roundtrip roundTripParse "x" freshOsr roundTripRoot
    rfl rfl (by decide)
  exact ⟨h.1, h.2.1 "Magnification" "20" (by decide) (by decide),
    h.2.2 "Comment" (by decide)⟩

/-! ## Lemmas about the directory walk and the sort -/

theorem wRel_iff (a b : Level) : wRel a b ↔ b.image_w ≤ a.image_w := by
  unfold wRel width_compare
  split_ifs with h1 h2
  · constructor
    · intro _; omega
    · intro _; decide
  · constructor
    · intro _; omega
    · intro _; decide
  · constructor
    · intro hc; exact absurd hc (by decide)
    · intro hle; omega

theorem sortLevels_sorted (ls : List Level) : List.Sorted wRel (sortLevels ls) :=
  List.sorted_insertionSort wRel ls

theorem sorted_getLast_min (L : List Level) :
    List.Sorted wRel L → ∀ t, L.getLast? = some t →
      ∀ x ∈ L, t.image_w ≤ x.image_w := by
  induction L with
  | nil => intro _ t ht; cases ht
  | cons a rest ih =>
    intro hs t ht x hx
    cases rest with
    | nil =>
      have hta : t = a := by
        have : some a = some t := ht
        exact (Option.some.inj this).symm
      have hxa : x = a := by
        rcases List.mem_cons.mp hx with hh | hh
        · exact hh
        · cases hh
      rw [hta, hxa]
    | cons b rest2 =>
      rw [List.getLast?_cons_cons] at ht
      have hs' := List.sorted_cons.mp hs
      rcases List.mem_cons.mp hx with hxa | hxr
      · have htm : t ∈ b :: rest2 := List.mem_of_mem_getLast? ht
        have hrel := hs'.1 t htm
        rw [wRel_iff] at hrel
        rw [hxa]
        exact hrel
      · exact ih hs'.2 t ht x hxr

theorem mkLevelStep_inv (env : OpenEnv) (osr0 : Osr) (s : WalkState) (i : Nat)
    (d : TiffDir) (h : WalkInv osr0 s) : WalkInv osr0 (mkLevelStep env s i d) := by
  obtain ⟨h1, h2, h3, h4⟩ := h
  unfold WalkInv mkLevelStep
  cases hcomp : d.compression with
  | none => exact ⟨h1, h2, h3, h4⟩
  | some c =>
    simp only [hcomp]
    by_cases hc : env.codecConfigured c = false
    · rw [if_pos hc]
      exact ⟨h1, h2, h3, h4⟩
    · rw [if_neg hc]
      by_cases hl : env.levelInitOk i = true
      · rw [if_pos hl]
        refine ⟨?_, ?_, h3, h4⟩
        · simp only [List.length_append, List.length_cons, List.length_nil]
          omega
        · simp only [List.length_append, List.length_cons, List.length_nil]
          omega
      · rw [if_neg hl]
        refine ⟨?_, ?_, h3, h4⟩
        · simp only [List.length_append, List.length_cons, List.length_nil]
          omega
        · simp only [List.length_append, List.length_cons, List.length_nil]
          omega

theorem mkLevelStep_tn (env : OpenEnv) (s : WalkState) (i : Nat) (d : TiffDir) :
    (mkLevelStep env s i d).tn_dir = s.tn_dir := by
  unfold mkLevelStep
  cases hcomp : d.compression with
  | none => rfl
  | some c =>
    simp only [hcomp]
    by_cases hc : env.codecConfigured c = false
    · rw [if_pos hc]
    · rw [if_neg hc]
      by_cases hl : env.levelInitOk i = true
      · rw [if_pos hl]
      · rw [if_neg hl]

theorem walkStep_inv (env : OpenEnv) (osr0 : Osr) (s : WalkState) (i : Nat)
    (d : TiffDir) (h : WalkInv osr0 s) : WalkInv osr0 (walkStep env s i d) := by
  unfold walkStep
  by_cases he : s.err.isSome = true
  · rw [if_pos he]; exact h
  · rw [if_neg he]
    by_cases ht : d.isTiled = false
    · rw [if_pos ht]; exact h
    · rw [if_neg ht]
      by_cases hi : i ≠ 0
      · rw [if_pos hi]
        cases hs : d.subfiletype with
        | none => exact h
        | some sft =>
          simp only [hs]
          obtain ⟨h1, h2, h3, h4⟩ := h
          by_cases hr : sft % 2 = 0
          · rw [if_pos hr]
            cases hdsc : d.imageDescription with
            | none => exact ⟨h1, h2, h3, h4⟩
            | some desc =>
              simp only [hdsc]
              by_cases ha : env.addAssociatedImageOk desc i = true
              · rw [if_pos ha]
                exact ⟨h1, h2, h3, h4⟩
              · rw [if_neg ha]
                exact ⟨h1, h2, h3, h4⟩
          · rw [if_neg hr]
            cases hw : d.imageWidth with
            | none => exact ⟨h1, h2, h3, h4⟩
            | some w =>
              simp only [hw]
              cases hh : d.imageHeight with
              | none => exact ⟨h1, h2, h3, h4⟩
              | some hgt =>
                simp only [hh]
                apply mkLevelStep_inv
                by_cases hdim : MIN_THUMBNAIL_DIM < w ∧ MIN_THUMBNAIL_DIM < hgt
                · rw [if_pos hdim]
                  exact ⟨h1, h2, h3, h4⟩
                · rw [if_neg hdim]
                  exact ⟨h1, h2, h3, h4⟩
      · rw [if_neg hi]
        exact mkLevelStep_inv env osr0 s i d h

theorem walkDirs_inv (env : OpenEnv) (osr0 : Osr) :
    ∀ (l : List (Nat × TiffDir)) (s : WalkState),
      WalkInv osr0 s → WalkInv osr0 (walkDirs env l s)
  | [], _, h => h
  | (i, d) :: rest, s, h =>
    walkDirs_inv env osr0 rest (walkStep env s i d) (walkStep_inv env osr0 s i d h)

theorem parse_initial_xml_levels (parse : String → Option XmlElem) (xml : String)
    (osr : Osr) :
    (parse_initial_xml parse xml osr).2.levels = osr.levels ∧
    (parse_initial_xml parse xml osr).2.hasData = osr.hasData := by
  unfold parse_initial_xml
  cases hp : parse xml with
  | none => exact ⟨rfl, rfl⟩
  | some root =>
    simp only [hp]
    cases hr : get_initial_root_xml root with
    | none => simp only [hr]; exact ⟨trivial, trivial⟩
    | some scaninfo => simp only [hr]; exact ⟨trivial, trivial⟩

theorem failOut_released (osr0 : Osr) (s : WalkState) (e : OptraErr)
    (ha : Option (Nat × Nat)) (hinv : WalkInv osr0 s) :
    ReleasedSpec osr0 (failOut s e ha) := by
  obtain ⟨h1, h2, h3, h4⟩ := hinv
  unfold ReleasedSpec failOut
  refine ⟨?_, ?_, rfl, h3, h4, rfl⟩
  · show s.levelFrees + s.levels.length = s.levelAllocs
    omega
  · show s.gridFrees + s.levels.length = s.gridAllocs
    omega

theorem thumbState_inv (osr0 : Osr) (s : WalkState) (h : WalkInv osr0 s) :
    WalkInv osr0 (thumbState s) := by
  obtain ⟨h1, h2, h3, h4⟩ := h
  exact ⟨h1, h2, h3, h4⟩

theorem openCommitPhase_fail (env : OpenEnv) (osr0 : Osr) (s : WalkState)
    (hinv : WalkInv osr0 s) (h : (openCommitPhase env s).status = .fail) :
    ReleasedSpec osr0 (openCommitPhase env s) := by
  unfold openCommitPhase at h ⊢
  cases hg : (sortLevels s.levels).get? ((sortLevels s.levels).length - 1) with
  | none =>
    simp only [hg] at h
    simp at h
  | some top =>
    simp only [hg] at h ⊢
    by_cases hh : env.initPropsHashOk top.dir = false
    · rw [if_pos hh]
      exact failOut_released osr0 s _ _ hinv
    · rw [if_neg hh] at h
      simp at h

theorem openFinishPhase_fail (env : OpenEnv) (osr0 : Osr) (s : WalkState)
    (hinv : WalkInv osr0 s) (h : (openFinishPhase env s).status = .fail) :
    ReleasedSpec osr0 (openFinishPhase env s) := by
  unfold openFinishPhase at h ⊢
  by_cases hA : env.setDirOk s.tn_dir = false
  · rw [if_pos hA]
    exact failOut_released osr0 s _ _ hinv
  · rw [if_neg hA] at h ⊢
    by_cases hB : env.addAssociatedImageOk "thumbnail" s.tn_dir = false
    · rw [if_pos hB]
      exact failOut_released osr0 s _ _ hinv
    · rw [if_neg hB] at h ⊢
      exact openCommitPhase_fail env osr0 (thumbState s) (thumbState_inv osr0 s hinv) h

theorem initWalk_inv (osr1 osr0 : Osr) (hl : osr1.levels = osr0.levels)
    (hd : osr1.hasData = osr0.hasData) : WalkInv osr0 (initWalk osr1) :=
  ⟨rfl, rfl, hl, hd⟩

theorem openWalkPhase_fail (env : OpenEnv) (osr1 osr0 : Osr)
    (hl : osr1.levels = osr0.levels) (hd : osr1.hasData = osr0.hasData)
    (h : (openWalkPhase env osr1).status = .fail) :
    ReleasedSpec osr0 (openWalkPhase env osr1) := by
  have hinv : WalkInv osr0 (walkDirs env env.dirs.enum (initWalk osr1)) :=
    walkDirs_inv env osr0 env.dirs.enum (initWalk osr1) (initWalk_inv osr1 osr0 hl hd)
  unfold openWalkPhase at h ⊢
  cases he : (walkDirs env env.dirs.enum (initWalk osr1)).err with
  | some e =>
    simp only [he] at h ⊢
    exact failOut_released osr0 _ _ _ hinv
  | none =>
    simp only [he] at h ⊢
    exact openFinishPhase_fail env osr0 _ hinv h

theorem optra_open_released (env : OpenEnv) (osr0 : Osr)
    (h : (optra_open env osr0).status = .fail) :
    ReleasedSpec osr0 (optra_open env osr0) := by
  unfold optra_open at h ⊢
  by_cases h0 : env.tiffOpenOk = false
  · rw [if_pos h0]
    exact failOut_released osr0 _ _ _ (initWalk_inv osr0 osr0 rfl rfl)
  · rw [if_neg h0] at h ⊢
    cases hx : env.xmlPacket with
    | none =>
      simp only [hx]
      exact failOut_released osr0 _ _ _ (initWalk_inv osr0 osr0 rfl rfl)
    | some xml =>
      simp only [hx] at h ⊢
      have hpres := parse_initial_xml_levels env.parse xml osr0
      cases hpx : parse_initial_xml env.parse xml osr0 with
      | mk ok1 osr1 =>
        rw [hpx] at hpres
        cases ok1 with
        | false =>
          simp only [hpx]
          exact failOut_released osr0 _ _ _ (initWalk_inv osr1 osr0 hpres.1 hpres.2)
        | true =>
          simp only [hpx] at h ⊢
          exact openWalkPhase_fail env osr1 osr0 hpres.1 hpres.2 h

/-- C2 (amended): on every failure of `optra_open`, every level struct
and tile grid constructed so far is released, the tiffcache reference is
torn down, no level sequence and no ops data is installed on the handle
(both fields are exactly as before the call), and an error is recorded
— in particular an unsupported compression code anywhere in the walk
aborts the build this way.  However, vendor properties copied by
`parse_initial_xml` and associated images registered before the failing
directory are NOT rolled back (see the counterexample), so the handle is
not left exactly as it was before the call. -/
theorem optra_open_failure_releases_resources (env : OpenEnv) (osr0 : Osr)
    (h : (optra_open env osr0).status = .fail) :
    (optra_open env osr0).levelFrees = (optra_open env osr0).levelAllocs ∧
    (optra_open env osr0).gridFrees = (optra_open env osr0).gridAllocs ∧
    (optra_open env osr0).tcReleased = true ∧
    (optra_open env osr0).osr.levels = osr0.levels ∧
    (optra_open env osr0).osr.hasData = osr0.hasData ∧
    (optra_open env osr0).err.isSome = true :=
  optra_open_released env osr0 h

theorem optra_open_failure_releases_resources_witness :
    (optra_open unsupportedCompressionEnv freshOsr).status = .fail ∧
    ((optra_open unsupportedCompressionEnv freshOsr).levelFrees =
        (optra_open unsupportedCompressionEnv freshOsr).levelAllocs ∧
      (optra_open unsupportedCompressionEnv freshOsr).gridFrees =
        (optra_open unsupportedCompressionEnv freshOsr).gridAllocs ∧
      (optra_open unsupportedCompressionEnv freshOsr).tcReleased = true ∧
      (optra_open unsupportedCompressionEnv freshOsr).osr.levels = freshOsr.levels ∧
      (optra_open unsupportedCompressionEnv freshOsr).osr.hasData = freshOsr.hasData ∧
      (optra_open unsupportedCompressionEnv freshOsr).err.isSome = true) :=
  ⟨by decide,
   optra_open_failure_releases_resources unsupportedCompressionEnv freshOsr (by decide)⟩

/-- C2 counterexample: after a failed `optra_open` (unsupported
compression in the only directory), the slide handle's property table is
NOT as it was before the call — the vendor property copied from the XML
packet and the standard property derived from it remain installed.  The
claim that "the Slide Handle is left exactly as it was before the call"
and that a failed build "installs no properties" is therefore false on
the code. -/
theorem optra_open_partial_state_escapes_cex :
    (optra_open unsupportedCompressionEnv freshOsr).status = .fail ∧
    (optra_open unsupportedCompressionEnv freshOsr).err =
      some (.unsupportedCompression 99) ∧
    (optra_open unsupportedCompressionEnv freshOsr).osr.properties ≠
      freshOsr.properties ∧
    slookup (optra_open unsupportedCompressionEnv freshOsr).osr.properties
      "optra.Magnification" = some "20" := by
  refine ⟨by decide, by decide, by decide, by decide⟩

theorem openCommitPhase_ok (env : OpenEnv) (s : WalkState)
    (h : (openCommitPhase env s).status = .ok) :
    ∃ top, (sortLevels s.levels).get? ((sortLevels s.levels).length - 1) = some top ∧
      (openCommitPhase env s).hashArgs = some (top.dir, 0) ∧
      (openCommitPhase env s).osr.levels = some (sortLevels s.levels) := by
  unfold openCommitPhase at h ⊢
  cases hg : (sortLevels s.levels).get? ((sortLevels s.levels).length - 1) with
  | none =>
    simp only [hg] at h
    simp at h
  | some top =>
    simp only [hg] at h ⊢
    by_cases hh : env.initPropsHashOk top.dir = false
    · rw [if_pos hh] at h
      simp [failOut] at h
    · rw [if_neg hh] at h ⊢
      exact ⟨top, rfl, rfl, rfl⟩

theorem openFinishPhase_ok (env : OpenEnv) (s : WalkState)
    (h : (openFinishPhase env s).status = .ok) :
    ∃ top, (sortLevels s.levels).get? ((sortLevels s.levels).length - 1) = some top ∧
      (openFinishPhase env s).hashArgs = some (top.dir, 0) ∧
      (openFinishPhase env s).osr.levels = some (sortLevels s.levels) := by
  unfold openFinishPhase at h ⊢
  by_cases hA : env.setDirOk s.tn_dir = false
  · rw [if_pos hA] at h
    simp [failOut] at h
  · rw [if_neg hA] at h ⊢
    by_cases hB : env.addAssociatedImageOk "thumbnail" s.tn_dir = false
    · rw [if_pos hB] at h
      simp [failOut] at h
    · rw [if_neg hB] at h ⊢
      exact openCommitPhase_ok env (thumbState s) h

theorem openWalkPhase_ok (env : OpenEnv) (osr1 : Osr)
    (h : (openWalkPhase env osr1).status = .ok) :
    ∃ ls top, (openWalkPhase env osr1).osr.levels = some (sortLevels ls) ∧
      (sortLevels ls).get? ((sortLevels ls).length - 1) = some top ∧
      (openWalkPhase env osr1).hashArgs = some (top.dir, 0) := by
  unfold openWalkPhase at h ⊢
  cases he : (walkDirs env env.dirs.enum (initWalk osr1)).err with
  | some e =>
    simp only [he] at h
    simp [failOut] at h
  | none =>
    simp only [he] at h ⊢
    obtain ⟨top, hg, hh, hl⟩ := openFinishPhase_ok env _ h
    exact ⟨_, top, hl, hg, hh⟩

theorem optra_open_ok_spec (env : OpenEnv) (osr0 : Osr)
    (h : (optra_open env osr0).status = .ok) :
    ∃ ls top, (optra_open env osr0).osr.levels = some (sortLevels ls) ∧
      (sortLevels ls).get? ((sortLevels ls).length - 1) = some top ∧
      (optra_open env osr0).hashArgs = some (top.dir, 0) := by
  unfold optra_open at h ⊢
  by_cases h0 : env.tiffOpenOk = false
  · rw [if_pos h0] at h
    simp [failOut] at h
  · rw [if_neg h0] at h ⊢
    cases hx : env.xmlPacket with
    | none =>
      simp only [hx] at h
      simp [failOut] at h
    | some xml =>
      simp only [hx] at h ⊢
      cases hpx : parse_initial_xml env.parse xml osr0 with
      | mk ok1 osr1 =>
        cases ok1 with
        | false =>
          simp only [hpx] at h
          simp [failOut] at h
        | true =>
          simp only [hpx] at h ⊢
          exact openWalkPhase_ok env osr1 h

/-! ## Claims C1, C6, C10: the designated level and the sorted pyramid -/

/-- C1: when `optra_open` succeeds, the level sequence installed on the
handle is the width-sorted array, and the fingerprint/property finalizer
is called with the directory index of the level at the TAIL of that
sorted sequence together with directory 0.  Since the comparator orders
by non-increasing width, that tail level has minimal image width among
all levels — the smallest level, not the largest. -/
theorem optra_open_top_level_is_smallest (env : OpenEnv) (osr0 : Osr)
    (h : (optra_open env osr0).status = .ok) :
    ∃ L top, (optra_open env osr0).osr.levels = some L ∧
      L.getLast? = some top ∧
      (optra_open env osr0).hashArgs = some (top.dir, 0) ∧
      ∀ l ∈ L, top.image_w ≤ l.image_w := by
  obtain ⟨ls, top, hl, hg, hh⟩ := optra_open_ok_spec env osr0 h
  have hlast : (sortLevels ls).getLast? = some top := by
    rw [List.getLast?_eq_getElem?, ← List.get?_eq_getElem?]
    exact hg
  exact ⟨sortLevels ls, top, hl, hlast, hh,
    sorted_getLast_min (sortLevels ls) (sortLevels_sorted ls) top hlast⟩

theorem optra_open_top_level_is_smallest_witness :
    (optra_open goodEnv freshOsr).status = .ok ∧
    (∃ L top, (optra_open goodEnv freshOsr).osr.levels = some L ∧
      L.getLast? = some top ∧
      (optra_open goodEnv freshOsr).hashArgs = some (top.dir, 0) ∧
      ∀ l ∈ L, top.image_w ≤ l.image_w) :=
  ⟨by decide, optra_open_top_level_is_smallest goodEnv freshOsr (by decide)⟩

/-- C6: every successfully built pyramid installs a level sequence
ordered by non-increasing image width. -/
theorem optra_open_levels_sorted_by_width (env : OpenEnv) (osr0 : Osr)
    (h : (optra_open env osr0).status = .ok) :
    ∃ L, (optra_open env osr0).osr.levels = some L ∧
      L.Pairwise (fun a b => b.image_w ≤ a.image_w) := by
  obtain ⟨ls, top, hl, hg, hh⟩ := optra_open_ok_spec env osr0 h
  refine ⟨sortLevels ls, hl, ?_⟩
  exact List.Pairwise.imp (fun hab => (wRel_iff _ _).mp hab) (sortLevels_sorted ls)

theorem optra_open_levels_sorted_by_width_witness :
    (optra_open goodEnv freshOsr).status = .ok ∧
    (∃ L, (optra_open goodEnv freshOsr).osr.levels = some L ∧
      L.Pairwise (fun a b => b.image_w ≤ a.image_w)) :=
  ⟨by decide, optra_open_levels_sorted_by_width goodEnv freshOsr (by decide)⟩

/-- C10: `optra_open` reads the designated level at index `length - 1`
of the level array with no emptiness check.  A successful open therefore
implies the installed level sequence is non-empty; and on a concrete
container whose walk yields zero levels while every earlier step
succeeds, the access is out of bounds (undefined behavior in the C,
surfaced as the `undef` status in the model). -/
theorem optra_open_top_access_requires_nonempty :
    (∀ (env : OpenEnv) (osr0 : Osr) (L : List Level),
      (optra_open env osr0).status = .ok →
      (optra_open env osr0).osr.levels = some L → L ≠ []) ∧
    (optra_open zeroLevelEnv freshOsr).status = .undef := by
  constructor
  · intro env osr0 L hok hL
    obtain ⟨ls, top, hl, hg, hh⟩ := optra_open_ok_spec env osr0 hok
    rw [hl] at hL
    have hLe : L = sortLevels ls := (Option.some.inj hL).symm
    intro hemp
    rw [hLe] at hemp
    rw [hemp] at hg
    simp at hg
  · decide

theorem optra_open_top_access_requires_nonempty_witness :
    (optra_open goodEnv freshOsr).status = .ok ∧
    (optra_open goodEnv freshOsr).osr.levels =
      some [{ image_w := 10000, dir := 0 }, { image_w := 800, dir := 5 },
            { image_w := 600, dir := 2 }] ∧
    ([{ image_w := 10000, dir := 0 }, { image_w := 800, dir := 5 },
      { image_w := 600, dir := 2 }] : List Level) ≠ [] :=
  ⟨by decide, by decide,
   optra_open_top_access_requires_nonempty.1 goodEnv freshOsr _ (by decide) (by decide)⟩

/-! ## Claim C3: thumbnail candidate selection -/

/-- C3: during the directory walk, every tiled reduced-resolution
directory (index other than 0) whose readable image width and height
both exceed the 500-px threshold overwrites the recorded thumbnail
candidate with its own index — so after the walk the LAST qualifying
directory stands; and on the concrete container with qualifying
reduced directories at indices 2 (600 by 600) and 5 (800 by 800), the
registered associated image named "thumbnail" resolves to directory 5
even though it is the larger image. -/
theorem optra_open_thumbnail_last_qualifying :
    (∀ (env : OpenEnv) (s : WalkState) (i : Nat) (d : TiffDir) (sft w hgt : Nat),
      s.err = none → d.isTiled = true → i ≠ 0 →
      d.subfiletype = some sft → sft % 2 = 1 →
      d.imageWidth = some w → d.imageHeight = some hgt →
      MIN_THUMBNAIL_DIM < w → MIN_THUMBNAIL_DIM < hgt →
      (walkStep env s i d).tn_dir = i) ∧
    slookup (optra_open goodEnv freshOsr).osr.associatedImages "thumbnail" = some 5 := by
  constructor
  · intro env s i d sft w hgt herr ht hi hs hodd hw hh hdw hdh
    unfold walkStep
    rw [if_neg (by simp [herr])]
    rw [if_neg (by simp [ht])]
    rw [if_pos hi]
    simp only [hs]
    rw [if_neg (by omega)]
    simp only [hw, hh]
    rw [if_pos ⟨hdw, hdh⟩]
    rw [mkLevelStep_tn]
  · decide

theorem optra_open_thumbnail_last_qualifying_witness :
    (initWalk freshOsr).err = none ∧
    (walkStep goodEnv (initWalk freshOsr) 5 (reducedDir 800 800)).tn_dir = 5 ∧
    slookup (optra_open goodEnv freshOsr).osr.associatedImages "thumbnail" = some 5 :=
  ⟨rfl,
   optra_open_thumbnail_last_qualifying.1 goodEnv (initWalk freshOsr) 5
     (reducedDir 800 800) 1 800 800 rfl rfl (by decide) rfl (by decide) rfl rfl
     (by decide) (by decide),
   optra_open_thumbnail_last_qualifying.2⟩
